import Mathlib

/-!
Verification of the plant-growth dashboard pipeline (`src/main.py`).

The development shallowly embeds the pure data pipeline of the dashboard:
the directory scan (`load_environment_data` / `load_growth_data`), the
Unicode-normalising file matcher (`normalize_name` / `find_file_by_name`),
the per-tab aggregations (overview rows, environment averages, growth
summary with best-group selection, concatenated long-form table) and the
process-wide load cache.  Numeric cells are modelled as `Option ℚ`, with
`none` playing the role of a pandas missing value (NaN): pandas `mean`
skips missing values and yields NaN on an all-missing column, and
`idxmax` skips missing values and fails on an all-missing column, which
is exactly how `colMean` and `idxmax` below behave.
-/

namespace PolarPlant

/-! ## Filenames and `pathlib` semantics -/

/-- Index of the last occurrence of `c` in `cs` (Python `str.rfind`),
`none` when `c` does not occur. -/
def lastIdxOf (c : Char) : List Char → Option Nat
  | [] => none
  | x :: rest =>
    match lastIdxOf c rest with
    | some i => some (i + 1)
    | none => if x = c then some 0 else none

/-- `pathlib.PurePath.suffix` on a plain file name: the substring from the
last dot, provided that dot is neither the first nor the last character;
otherwise the empty string. -/
def suffixChars (cs : List Char) : List Char :=
  match lastIdxOf '.' cs with
  | some i => if 0 < i ∧ i < cs.length - 1 then cs.drop i else []
  | none => []

/-- `pathlib.PurePath.stem` on a plain file name: the part before the
final suffix. -/
def stemChars (cs : List Char) : List Char :=
  match lastIdxOf '.' cs with
  | some i => if 0 < i ∧ i < cs.length - 1 then cs.take i else cs
  | none => cs

def pathSuffix (s : String) : String := ⟨suffixChars s.data⟩

def pathStem (s : String) : String := ⟨stemChars s.data⟩

/-- `f.stem.split("_")[0]`: the stem up to (not including) the first
underscore. -/
def keyOf (s : String) : String := ⟨(stemChars s.data).takeWhile (fun c => c ≠ '_')⟩

/-! ## Data model -/

/-- One row of a per-group environment CSV. -/
structure EnvRow where
  time : String
  temperature : Option ℚ
  humidity : Option ℚ
  ph : Option ℚ
  ec : Option ℚ
deriving DecidableEq

abbrev EnvTable := List EnvRow

/-- One specimen row of a workbook sheet. -/
structure GrowthRow where
  freshWeight : Option ℚ
  leafCount : Option ℚ
  shootLength : Option ℚ
deriving DecidableEq

abbrev GrowthTable := List GrowthRow

/-- A directory entry of the `data` folder, carrying its parsed content:
`csvRows` is what `pd.read_csv` yields for it, `sheets` is what reading it
as a workbook yields (sheet name ↦ sheet rows, in workbook order). -/
structure DirFile where
  name : String
  csvRows : EnvTable
  sheets : List (String × GrowthTable)
deriving DecidableEq

/-! ## Insertion-ordered dictionaries (Python `dict` semantics) -/

/-- `d[k] = v` on a Python dict modelled as an insertion-ordered
association list: an existing key keeps its position and gets the new
value, a new key is appended. -/
def dictInsert {α β : Type} [DecidableEq α] (k : α) (v : β) : List (α × β) → List (α × β)
  | [] => [(k, v)]
  | (k', v') :: rest =>
    if k' = k then (k', v) :: rest else (k', v') :: dictInsert k v rest

/-- Key lookup in the association-list dict. -/
def lookupD {α β : Type} [DecidableEq α] : List (α × β) → α → Option β
  | [], _ => none
  | (k', v) :: rest, k => if k' = k then some v else lookupD rest k

/-! ## Loaders (`load_environment_data`, `load_growth_data`) -/

/-- One step of the CSV registration loop: register a `.csv` entry under
the first underscore-segment of its stem, ignore everything else. -/
def schoolStep (acc : List (String × DirFile)) (f : DirFile) : List (String × DirFile) :=
  if pathSuffix f.name == ".csv" then dictInsert (keyOf f.name) f acc else acc

/-- The `school_files` dict built by the scan loop of
`load_environment_data`. -/
def school_files (fs : List DirFile) : List (String × DirFile) :=
  fs.foldl schoolStep []

/-- `load_environment_data`: the registered CSV files, each parsed to its
table. -/
def load_environment_data (fs : List DirFile) : List (String × EnvTable) :=
  (school_files fs).map (fun p => (p.1, p.2.csvRows))

/-- `load_growth_data`: the first `.xlsx` entry of the scan, read sheet by
sheet into a dict keyed by sheet name; `none` when no workbook exists. -/
def load_growth_data (fs : List DirFile) : Option (List (String × GrowthTable)) :=
  match fs.find? (fun f => pathSuffix f.name == ".xlsx") with
  | none => none
  | some wb => some (wb.sheets.foldl (fun acc p => dictInsert p.1 p.2 acc) [])

/-- The top-level startup guard `if not env_data or not growth_data:
st.error(...); st.stop()`. -/
def fatalStop (fs : List DirFile) : Bool :=
  (load_environment_data fs).isEmpty ||
    (match load_growth_data fs with
     | none => true
     | some g => g.isEmpty)

/-! ## Static configuration (`ec_conditions`, `school_colors`) -/

def ec_conditions : List (String × ℚ) :=
  [("송도고", 1), ("하늘고", 2), ("아라고", 4), ("동산고", 8)]

def school_colors : List (String × String) :=
  [("송도고", "#1f77b4"), ("하늘고", "#2ca02c"), ("아라고", "#ff7f0e"), ("동산고", "#d62728")]

/-! ## Column means (pandas `Series.mean`) -/

/-- The non-missing entries of a column. -/
def nonMissing (xs : List (Option ℚ)) : List ℚ := xs.filterMap id

/-- Arithmetic mean of a list of values (spec reading: "arithmetic mean
over non-missing values"). -/
def specArithMean (vs : List ℚ) : ℚ := vs.sum / (vs.length : ℚ)

/-- pandas `Series.mean`: the arithmetic mean of the non-missing entries,
NaN (`none`) when there is no non-missing entry. -/
def colMean (xs : List (Option ℚ)) : Option ℚ :=
  if (nonMissing xs).length = 0 then none else some (specArithMean (nonMissing xs))

/-! ## Tab 3: growth summary and best-group selection -/

/-- One row of the tab-3 `summary` list. -/
structure SummaryRow where
  school : String
  ec : Option ℚ
  meanFresh : Option ℚ
  meanLeaf : Option ℚ
  meanShoot : Option ℚ
  count : Nat
deriving DecidableEq

/-- The tab-3 summary: one row per `growth_data` entry, in iteration
order. -/
def summaryRows (growth : List (String × GrowthTable)) : List SummaryRow :=
  growth.map (fun p =>
    { school := p.1
      ec := lookupD ec_conditions p.1
      meanFresh := colMean (p.2.map (fun r => r.freshWeight))
      meanLeaf := colMean (p.2.map (fun r => r.leafCount))
      meanShoot := colMean (p.2.map (fun r => r.shootLength))
      count := p.2.length })

/-- pandas `Series.idxmax`: position and value of the first maximal
non-missing entry; `none` (the raising case) when every entry is
missing. -/
def idxmax : List (Option ℚ) → Option (Nat × ℚ)
  | [] => none
  | none :: rest => (idxmax rest).map (fun p => (p.1 + 1, p.2))
  | some v :: rest =>
    match idxmax rest with
    | none => some (0, v)
    | some (j, m) => if v < m then some (j + 1, m) else some (0, v)

/-- The mean-fresh-weight column of the summary. -/
def freshCol (growth : List (String × GrowthTable)) : List (Option ℚ) :=
  (summaryRows growth).map (fun r => r.meanFresh)

/-- `best = summary_df.loc[summary_df["평균 생중량"].idxmax()]`. -/
def bestRow (growth : List (String × GrowthTable)) : Option SummaryRow :=
  match idxmax (freshCol growth) with
  | none => none
  | some p => (summaryRows growth).get? p.1

/-! ## Tab 1: overview table and metrics -/

/-- One row of the tab-1 overview table. -/
structure OverviewRow where
  school : String
  ecTarget : Option ℚ
  count : Nat
  color : Option String
deriving DecidableEq

/-- `len(growth_data.get(school, []))`. -/
def growthCount (growth : List (String × GrowthTable)) (s : String) : Nat :=
  match lookupD growth s with
  | some df => df.length
  | none => 0

/-- The tab-1 overview rows, one per `env_data` entry. -/
def overviewRows (env : List (String × EnvTable)) (growth : List (String × GrowthTable)) :
    List OverviewRow :=
  env.map (fun p =>
    { school := p.1
      ecTarget := lookupD ec_conditions p.1
      count := growthCount growth p.1
      color := lookupD school_colors p.1 })

/-- The `temps` accumulator of the tab-1 loop: one per-group temperature
mean per `env_data` entry. -/
def tab1Temps (env : List (String × EnvTable)) : List (Option ℚ) :=
  env.map (fun p => colMean (p.2.map (fun r => r.temperature)))

/-- The `hums` accumulator of the tab-1 loop. -/
def tab1Hums (env : List (String × EnvTable)) : List (Option ℚ) :=
  env.map (fun p => colMean (p.2.map (fun r => r.humidity)))

/-- Python float `sum`: missing (NaN) inputs poison the sum. -/
def pySum (xs : List (Option ℚ)) : Option ℚ :=
  xs.foldl (fun a x =>
    match a, x with
    | some q, some v => some (q + v)
    | _, _ => none) (some 0)

/-- Division of a possibly-missing value by a list length; a zero length
is the `ZeroDivisionError` case and yields `none`. -/
def pyDivNat (a : Option ℚ) (n : Nat) : Option ℚ :=
  if n = 0 then none else a.map (fun q => q / (n : ℚ))

/-- The tab-1 "평균 온도" metric value: `sum(temps)/len(temps)`. -/
def tab1AvgTemp (env : List (String × EnvTable)) : Option ℚ :=
  pyDivNat (pySum (tab1Temps env)) (tab1Temps env).length

/-- The tab-1 "평균 습도" metric value: `sum(hums)/len(hums)`. -/
def tab1AvgHum (env : List (String × EnvTable)) : Option ℚ :=
  pyDivNat (pySum (tab1Hums env)) (tab1Hums env).length

/-- The tab-1 "총 개체수" metric value. -/
def tab1TotalCount (env : List (String × EnvTable)) (growth : List (String × GrowthTable)) :
    Nat :=
  (env.map (fun p => growthCount growth p.1)).sum

/-- The tab-1 "최적 EC" metric value: `c4.metric("최적 EC", "2.0 (하늘고) ⭐")`
renders a string literal, whatever data was loaded. -/
def tab1OptEC (_env : List (String × EnvTable)) (_growth : List (String × GrowthTable)) :
    String :=
  "2.0 (하늘고) ⭐"

/-! ## Tab 3: concatenated long-form table -/

/-- `pd.concat([df.assign(학교=school) for school, df in growth_data.items()])`:
every specimen row, tagged with its group name. -/
def concat_df (growth : List (String × GrowthTable)) : List (String × GrowthRow) :=
  (growth.map (fun p => p.2.map (fun r => (p.1, r)))).flatten

/-! ## Name normalisation (`normalize_name`, `find_file_by_name`) -/

/-- Leading consonant jamo (U+1100–U+1112). -/
def isLJamo (c : Char) : Bool := 0x1100 ≤ c.toNat && c.toNat ≤ 0x1112

/-- Vowel jamo (U+1161–U+1175). -/
def isVJamo (c : Char) : Bool := 0x1161 ≤ c.toNat && c.toNat ≤ 0x1175

/-- Trailing consonant jamo (U+11A8–U+11C2). -/
def isTJamo (c : Char) : Bool := 0x11A8 ≤ c.toNat && c.toNat ≤ 0x11C2

/-- Canonical composition of a leading-consonant/vowel jamo pair into a
precomposed Hangul syllable. -/
def hangulLV (l v : Char) : Char :=
  Char.ofNat (0xAC00 + (l.toNat - 0x1100) * 588 + (v.toNat - 0x1161) * 28)

/-- Canonical composition of a leading/vowel/trailing jamo triple. -/
def hangulLVT (l v t : Char) : Char :=
  Char.ofNat (0xAC00 + (l.toNat - 0x1100) * 588 + (v.toNat - 0x1161) * 28 + (t.toNat - 0x11A7))

/-- Model of `unicodedata.normalize("NFC", ·)` restricted to the
algorithmic Hangul part of canonical composition: decomposed jamo
sequences are composed into precomposed syllables, all other characters
pass through unchanged.  Total on every character list. -/
def nfc : List Char → List Char
  | [] => []
  | [c] => [c]
  | [c1, c2] => if isLJamo c1 && isVJamo c2 then [hangulLV c1 c2] else c1 :: nfc [c2]
  | c1 :: c2 :: c3 :: rest =>
    if isLJamo c1 && isVJamo c2 then
      if isTJamo c3 then hangulLVT c1 c2 c3 :: nfc rest
      else hangulLV c1 c2 :: nfc (c3 :: rest)
    else c1 :: nfc (c2 :: c3 :: rest)

/-- `normalize_name`: NFC normalisation of a file name. -/
def normalize_name (name : String) : String := ⟨nfc name.data⟩

/-- `find_file_by_name`: the first directory entry whose normalised name
equals the normalised target. -/
def find_file_by_name (files : List DirFile) (target_name : String) : Option DirFile :=
  files.find? (fun f => normalize_name f.name == normalize_name target_name)

/-! ## The process-wide load cache (`@st.cache_data`) -/

/-- The memo state of the two `@st.cache_data` loaders.  Both loaders
take no arguments, so each cache entry is keyed by nothing at all. -/
structure CacheState where
  envCache : Option (List (String × EnvTable))
  growthCache : Option (Option (List (String × GrowthTable)))
deriving DecidableEq

def initialCache : CacheState := ⟨none, none⟩

/-- Result of one cached loader invocation: the returned value, the cache
afterwards, and whether the disk was read. -/
structure LoadOutcome (α : Type) where
  value : α
  state : CacheState
  readDisk : Bool
deriving DecidableEq

/-- One invocation of the cached `load_environment_data` against the
current directory contents `fs`. -/
def run_load_environment (fs : List DirFile) (st : CacheState) :
    LoadOutcome (List (String × EnvTable)) :=
  match st.envCache with
  | some r => ⟨r, st, false⟩
  | none => ⟨load_environment_data fs,
      { st with envCache := some (load_environment_data fs) }, true⟩

/-- One invocation of the cached `load_growth_data` against the current
directory contents `fs`. -/
def run_load_growth (fs : List DirFile) (st : CacheState) :
    LoadOutcome (Option (List (String × GrowthTable))) :=
  match st.growthCache with
  | some r => ⟨r, st, false⟩
  | none => ⟨load_growth_data fs,
      { st with growthCache := some (load_growth_data fs) }, true⟩

/-! ## Dictionary lemmas -/

theorem lookupD_dictInsert_self {α β : Type} [DecidableEq α] (k : α) (v : β) :
    ∀ l : List (α × β), lookupD (dictInsert k v l) k = some v := by
  intro l
  induction l with
  | nil => simp [dictInsert, lookupD]
  | cons p rest ih =>
    obtain ⟨k', v'⟩ := p
    by_cases h : k' = k
    · simp [dictInsert, h, lookupD]
    · simp [dictInsert, h, lookupD, ih]

theorem lookupD_dictInsert_ne {α β : Type} [DecidableEq α] (kI kQ : α) (v : β)
    (h : kI ≠ kQ) : ∀ l : List (α × β), lookupD (dictInsert kI v l) kQ = lookupD l kQ := by
  intro l
  induction l with
  | nil => simp [dictInsert, lookupD, h]
  | cons p rest ih =>
    obtain ⟨k', v'⟩ := p
    by_cases h' : k' = kI
    · subst h'; simp [dictInsert, lookupD, h]
    · simp [dictInsert, h', lookupD, ih]

theorem dictInsert_ne_nil {α β : Type} [DecidableEq α] (k : α) (v : β) :
    ∀ l : List (α × β), dictInsert k v l ≠ [] := by
  intro l
  cases l with
  | nil => simp [dictInsert]
  | cons p rest =>
    obtain ⟨k', v'⟩ := p
    by_cases h : k' = k <;> simp [dictInsert, h]

theorem lookupD_eq_none_iff {α β : Type} [DecidableEq α] (k : α) :
    ∀ l : List (α × β), lookupD l k = none ↔ ∀ p ∈ l, p.1 ≠ k := by
  intro l
  induction l with
  | nil => simp [lookupD]
  | cons p rest ih =>
    obtain ⟨k', v'⟩ := p
    by_cases h : k' = k
    · simp [lookupD, h]
    · simp [lookupD, h, ih]

/-- The last element of a cons in terms of the tail's last element. -/
theorem getLast?_cons_or {α : Type} (a : α) :
    ∀ l : List α, (a :: l).getLast? =
      match l.getLast? with
      | none => some a
      | some b => some b := by
  intro l
  induction l with
  | nil => rfl
  | cons b t ih =>
    rw [List.getLast?_cons_cons]
    cases h : (b :: t).getLast? with
    | none =>
      exfalso
      have : b :: t ≠ [] := by simp
      rw [List.getLast?_eq_none_iff] at h
      exact this h
    | some c => rfl

/-! ## C4: registration key and last-wins overwrite -/

theorem school_files_foldl (k : String) :
    ∀ (fs : List DirFile) (acc : List (String × DirFile)),
      lookupD (fs.foldl schoolStep acc) k =
        match (fs.filter
            (fun f => (pathSuffix f.name == ".csv") && (keyOf f.name == k))).getLast? with
        | some f => some f
        | none => lookupD acc k := by
  intro fs
  induction fs with
  | nil => intro acc; simp
  | cons f rest ih =>
    intro acc
    rw [List.foldl_cons, List.filter_cons]
    by_cases hcsv : (pathSuffix f.name == ".csv") = true
    · have hstep : schoolStep acc f = dictInsert (keyOf f.name) f acc := by
        simp [schoolStep, hcsv]
      by_cases hkey : keyOf f.name = k
      · -- the entry is registered under exactly the queried key
        have hp : ((pathSuffix f.name == ".csv") && (keyOf f.name == k)) = true := by
          simp [hcsv, hkey]
        rw [hp, if_pos rfl, ih, hstep, getLast?_cons_or]
        cases hfil : (rest.filter
            (fun f => (pathSuffix f.name == ".csv") && (keyOf f.name == k))).getLast? with
        | none =>
          have : lookupD (dictInsert (keyOf f.name) f acc) k = some f := by
            rw [hkey]; exact lookupD_dictInsert_self k f acc
          simp [this]
        | some g => simp
      · -- a CSV entry for a different key does not affect the lookup
        have hp : ((pathSuffix f.name == ".csv") && (keyOf f.name == k)) = false := by
          simp [hkey]
        rw [hp, if_neg (by simp), ih, hstep,
          lookupD_dictInsert_ne (keyOf f.name) k f hkey acc]
    · -- a non-CSV entry is skipped entirely
      have hstep : schoolStep acc f = acc := by
        simp [schoolStep, hcsv]
      have hp : ((pathSuffix f.name == ".csv") && (keyOf f.name == k)) = false := by
        simp only [Bool.and_eq_true, not_and] at hcsv ⊢
        simp [Bool.eq_false_iff, Ne, hcsv]
      rw [hp, if_neg (by simp), ih, hstep]

/-- Claim C4: the scan of `load_environment_data` registers every `.csv`
entry under the first underscore-segment of its filename stem, and when
several files map to the same key the file encountered last in the
directory iteration wins: for every listing and every key, the registered
file is exactly the last `.csv` entry whose derived key matches. -/
theorem school_files_last_wins (fs : List DirFile) (k : String) :
    lookupD (school_files fs) k =
      (fs.filter
        (fun f => (pathSuffix f.name == ".csv") && (keyOf f.name == k))).getLast? := by
  rw [school_files, school_files_foldl k fs []]
  cases (fs.filter
      (fun f => (pathSuffix f.name == ".csv") && (keyOf f.name == k))).getLast? with
  | none => rfl
  | some g => rfl

/-! ## `idxmax` and `colMean` lemmas -/

theorem idxmax_eq_none_iff : ∀ xs : List (Option ℚ), idxmax xs = none ↔ ∀ x ∈ xs, x = none := by
  intro xs
  induction xs with
  | nil => simp [idxmax]
  | cons x rest ih =>
    cases x with
    | none =>
      simp only [idxmax, Option.map_eq_none', ih, List.mem_cons, List.forall_mem_cons]
      simp
    | some v =>
      cases hr : idxmax rest with
      | none => simp [idxmax, hr, List.forall_mem_cons]
      | some p =>
        obtain ⟨j, m⟩ := p
        simp only [idxmax, hr, List.forall_mem_cons]
        split <;> simp

theorem idxmax_spec : ∀ (xs : List (Option ℚ)) (j : Nat) (m : ℚ),
    idxmax xs = some (j, m) →
    xs.get? j = some (some m) ∧
    (∀ i q, xs.get? i = some (some q) → q ≤ m) ∧
    (∀ i, i < j → ∀ q, xs.get? i = some (some q) → q < m) := by
  intro xs
  induction xs with
  | nil => intro j m h; simp [idxmax] at h
  | cons x rest ih =>
    intro j m h
    cases x with
    | none =>
      have hm : (idxmax rest).map (fun p => (p.1 + 1, p.2)) = some (j, m) := h
      rcases Option.map_eq_some'.1 hm with ⟨⟨j', m'⟩, hj', heq⟩
      simp only [Prod.mk.injEq] at heq
      obtain ⟨hje, hme⟩ := heq
      subst hje; subst hme
      obtain ⟨h1, h2, h3⟩ := ih j' m' hj'
      refine ⟨by simpa using h1, ?_, ?_⟩
      · intro i q hq
        cases i with
        | zero => simp at hq
        | succ i' => exact h2 i' q (by simpa using hq)
      · intro i hi q hq
        cases i with
        | zero => simp at hq
        | succ i' => exact h3 i' (Nat.lt_of_succ_lt_succ hi) q (by simpa using hq)
    | some v =>
      cases hr : idxmax rest with
      | none =>
        have hx : idxmax (some v :: rest) = some (0, v) := by simp [idxmax, hr]
        rw [hx] at h
        simp only [Option.some.injEq, Prod.mk.injEq] at h
        obtain ⟨hje, hme⟩ := h
        subst hje; subst hme
        refine ⟨rfl, ?_, fun i hi => absurd hi (Nat.not_lt_zero i)⟩
        intro i q hq
        cases i with
        | zero =>
          simp only [List.get?_cons_zero, Option.some.injEq] at hq
          exact hq ▸ le_refl _
        | succ i' =>
          have hmem : some q ∈ rest := List.get?_mem (by simpa using hq)
          have := (idxmax_eq_none_iff rest).1 hr _ hmem
          simp at this
      | some p =>
        obtain ⟨j', m'⟩ := p
        obtain ⟨h1, h2, h3⟩ := ih j' m' hr
        by_cases hvm : v < m'
        · have hx : idxmax (some v :: rest) = some (j' + 1, m') := by
            simp [idxmax, hr, hvm]
          rw [hx] at h
          simp only [Option.some.injEq, Prod.mk.injEq] at h
          obtain ⟨hje, hme⟩ := h
          subst hje; subst hme
          refine ⟨by simpa using h1, ?_, ?_⟩
          · intro i q hq
            cases i with
            | zero =>
              simp only [List.get?_cons_zero, Option.some.injEq] at hq
              exact hq ▸ le_of_lt hvm
            | succ i' => exact h2 i' q (by simpa using hq)
          · intro i hi q hq
            cases i with
            | zero =>
              simp only [List.get?_cons_zero, Option.some.injEq] at hq
              exact hq ▸ hvm
            | succ i' => exact h3 i' (Nat.lt_of_succ_lt_succ hi) q (by simpa using hq)
        · have hx : idxmax (some v :: rest) = some (0, v) := by
            simp [idxmax, hr, hvm]
          rw [hx] at h
          simp only [Option.some.injEq, Prod.mk.injEq] at h
          obtain ⟨hje, hme⟩ := h
          subst hje; subst hme
          have hle : m' ≤ v := le_of_not_lt hvm
          refine ⟨rfl, ?_, fun i hi => absurd hi (Nat.not_lt_zero i)⟩
          intro i q hq
          cases i with
          | zero =>
            simp only [List.get?_cons_zero, Option.some.injEq] at hq
            exact hq ▸ le_refl _
          | succ i' => exact le_trans (h2 i' q (by simpa using hq)) hle

theorem colMean_eq_some (xs : List (Option ℚ)) (h : ∃ x ∈ xs, x ≠ none) :
    colMean xs = some (specArithMean (nonMissing xs)) := by
  obtain ⟨x, hx, hne⟩ := h
  obtain ⟨a, rfl⟩ := Option.ne_none_iff_exists'.1 hne
  have hmem : a ∈ nonMissing xs := List.mem_filterMap.2 ⟨some a, hx, rfl⟩
  have hlen : (nonMissing xs).length ≠ 0 := by
    intro h0
    rw [List.length_eq_zero] at h0
    rw [h0] at hmem
    exact absurd hmem (List.not_mem_nil a)
  simp [colMean, hlen]

/-! ## C1: the best-group selection picks a maximal mean fresh weight -/

/-- Claim C1: over every growth mapping in which the summary is non-empty
and every group has at least one specimen with a non-missing fresh
weight, the `idxmax`-selected best row exists, its mean fresh weight is
`≥` every group's mean fresh weight, and every group strictly earlier in
iteration order has a strictly smaller mean (first maximum wins). -/
theorem best_group_is_max (growth : List (String × GrowthTable))
    (hne : growth ≠ [])
    (hspec : ∀ p ∈ growth, ∃ r ∈ p.2, r.freshWeight ≠ none) :
    ∃ j b m,
      idxmax (freshCol growth) = some (j, m) ∧
      bestRow growth = some b ∧
      (summaryRows growth).get? j = some b ∧
      b.meanFresh = some m ∧
      (∀ r ∈ summaryRows growth, ∀ q, r.meanFresh = some q → q ≤ m) ∧
      (∀ i r', i < j → (summaryRows growth).get? i = some r' →
        ∀ q, r'.meanFresh = some q → q < m) := by
  have hall : ∀ x ∈ freshCol growth, ∃ q, x = some q := by
    intro x hx
    simp only [freshCol] at hx
    rcases List.mem_map.1 hx with ⟨r, hr, rfl⟩
    rcases List.mem_map.1 hr with ⟨p, hp, rfl⟩
    obtain ⟨row, hrow, hnone⟩ := hspec p hp
    exact ⟨_, colMean_eq_some _ ⟨row.freshWeight, List.mem_map_of_mem _ hrow, hnone⟩⟩
  have hnonnil : freshCol growth ≠ [] := by
    simp only [freshCol, summaryRows, ne_eq, List.map_eq_nil_iff]
    exact hne
  have hnn : idxmax (freshCol growth) ≠ none := by
    intro h0
    obtain ⟨x, hx⟩ := List.exists_mem_of_ne_nil _ hnonnil
    obtain ⟨q, rfl⟩ := hall x hx
    have := (idxmax_eq_none_iff _).1 h0 _ hx
    simp at this
  obtain ⟨⟨j, m⟩, hjm⟩ := Option.ne_none_iff_exists'.1 hnn
  obtain ⟨h1, h2, h3⟩ := idxmax_spec _ j m hjm
  have hget : ∃ b, (summaryRows growth).get? j = some b ∧ b.meanFresh = some m := by
    simp only [freshCol, List.get?_map] at h1
    rcases Option.map_eq_some'.1 h1 with ⟨b, hb, hbm⟩
    exact ⟨b, hb, hbm⟩
  obtain ⟨b, hb, hbm⟩ := hget
  refine ⟨j, b, m, hjm, ?_, hb, hbm, ?_, ?_⟩
  · simp only [bestRow, hjm]
    exact hb
  · intro r hr q hq
    rcases List.mem_iff_get?.1 hr with ⟨i, hi⟩
    apply h2 i q
    simp only [freshCol, List.get?_map, hi, Option.map_some']
    simp [hq]
  · intro i r' hij hir q hq
    apply h3 i hij q
    simp only [freshCol, List.get?_map, hir, Option.map_some']
    simp [hq]

/-- A concrete growth mapping: the second group has the strictly largest
mean fresh weight. -/
def growthW1 : List (String × GrowthTable) :=
  [("송도고", [⟨some 1, none, none⟩]),
   ("하늘고", [⟨some 2, none, none⟩, ⟨none, none, none⟩])]

theorem best_group_is_max_w :
    growthW1 ≠ [] ∧
    (∀ p ∈ growthW1, ∃ r ∈ p.2, r.freshWeight ≠ none) ∧
    (∃ j b m,
      idxmax (freshCol growthW1) = some (j, m) ∧
      bestRow growthW1 = some b ∧
      (summaryRows growthW1).get? j = some b ∧
      b.meanFresh = some m ∧
      (∀ r ∈ summaryRows growthW1, ∀ q, r.meanFresh = some q → q ≤ m) ∧
      (∀ i r', i < j → (summaryRows growthW1).get? i = some r' →
        ∀ q, r'.meanFresh = some q → q < m)) :=
  ⟨by decide, by decide, best_group_is_max growthW1 (by decide) (by decide)⟩

/-! ## C2: per-group mean fresh weight -/

/-- Claim C2 (amended): for every group of the growth mapping the tab-3
summary contains its row (the aggregation is total, so it cannot raise);
when the group has a non-missing fresh weight its summary mean equals the
arithmetic mean of the non-missing fresh weights; when the group's table
is empty its summary mean is the missing value `none` — the NaN produced
by the column mean, propagated unchanged, not an explicit marker. -/
theorem summary_mean_fresh (growth : List (String × GrowthTable)) (s : String)
    (df : GrowthTable) (hmem : (s, df) ∈ growth) :
    ∃ row, row ∈ summaryRows growth ∧ row.school = s ∧ row.count = df.length ∧
      ((∃ r ∈ df, r.freshWeight ≠ none) →
        row.meanFresh = some (specArithMean (nonMissing (df.map (fun r => r.freshWeight))))) ∧
      (df = [] → row.meanFresh = none) := by
  refine ⟨{ school := s
            ec := lookupD ec_conditions s
            meanFresh := colMean (df.map (fun r => r.freshWeight))
            meanLeaf := colMean (df.map (fun r => r.leafCount))
            meanShoot := colMean (df.map (fun r => r.shootLength))
            count := df.length }, ?_, rfl, rfl, ?_, ?_⟩
  · exact List.mem_map.2 ⟨(s, df), hmem, rfl⟩
  · intro h
    obtain ⟨r, hr, hne⟩ := h
    exact colMean_eq_some _ ⟨r.freshWeight, List.mem_map_of_mem _ hr, hne⟩
  · intro h
    subst h
    rfl

/-- A growth mapping whose second group has an empty table. -/
def growthEmptyB : List (String × GrowthTable) :=
  [("송도고", [⟨none, none, none⟩]), ("하늘고", [])]

/-- Claim C2 counterexample: for the group with an empty table the
summary's mean fresh weight is `none` — exactly the NaN that the column
mean yields, silently propagated into the summary row; no code path
replaces it with an explicit "no data" marker. -/
theorem summary_empty_group_nan :
    (summaryRows growthEmptyB).get? 1 =
      some { school := "하늘고", ec := some 2, meanFresh := none, meanLeaf := none,
             meanShoot := none, count := 0 } ∧
    colMean (([] : GrowthTable).map (fun r => r.freshWeight)) = none :=
  ⟨rfl, rfl⟩

/-- A concrete growth table with two non-missing fresh weights. -/
def dfW2 : GrowthTable := [⟨some 2, none, none⟩, ⟨some 4, none, none⟩]

def growthW2 : List (String × GrowthTable) := [("송도고", dfW2), ("하늘고", [])]

theorem summary_mean_fresh_w :
    ∃ row, row ∈ summaryRows growthW2 ∧ row.school = "송도고" ∧ row.count = dfW2.length ∧
      ((∃ r ∈ dfW2, r.freshWeight ≠ none) →
        row.meanFresh = some (specArithMean (nonMissing (dfW2.map (fun r => r.freshWeight))))) ∧
      (dfW2 = [] → row.meanFresh = none) :=
  summary_mean_fresh growthW2 "송도고" dfW2 (by decide)

/-! ## C3: the startup guard -/

theorem foldl_dictInsert_eq_nil {α β : Type} [DecidableEq α] :
    ∀ (l : List (α × β)) (acc : List (α × β)),
      (l.foldl (fun a p => dictInsert p.1 p.2 a) acc = []) ↔ (l = [] ∧ acc = []) := by
  intro l
  induction l with
  | nil => intro acc; simp
  | cons p rest ih =>
    intro acc
    simp [List.foldl_cons, ih, dictInsert_ne_nil]

/-- Claim C3 (amended): the growth loader returns `none` exactly when the
scan finds no `.xlsx` entry, and the top-level guard stops startup if and
only if the CSV registration is empty, or no workbook was found, or the
workbook that was found contains no sheets; in every other case execution
proceeds past the guard. -/
theorem startup_check (fs : List DirFile) :
    (fs.find? (fun f => pathSuffix f.name == ".xlsx") = none → load_growth_data fs = none) ∧
    (fatalStop fs = true ↔
      (school_files fs = [] ∨
       fs.find? (fun f => pathSuffix f.name == ".xlsx") = none ∨
       (∃ wb, fs.find? (fun f => pathSuffix f.name == ".xlsx") = some wb ∧
         wb.sheets = []))) := by
  constructor
  · intro h
    simp [load_growth_data, h]
  · cases hfind : fs.find? (fun f => pathSuffix f.name == ".xlsx") with
    | none =>
      have hg : load_growth_data fs = none := by simp [load_growth_data, hfind]
      simp [fatalStop, hg]
    | some wb =>
      have hg : load_growth_data fs =
          some (wb.sheets.foldl (fun acc p => dictInsert p.1 p.2 acc) []) := by
        simp [load_growth_data, hfind]
      have henv : (load_environment_data fs).isEmpty = true ↔ school_files fs = [] := by
        simp [load_environment_data, List.isEmpty_iff, List.map_eq_nil_iff]
      have hfold : ((wb.sheets.foldl (fun acc p => dictInsert p.1 p.2 acc) []).isEmpty = true)
          ↔ wb.sheets = [] := by
        rw [List.isEmpty_iff, foldl_dictInsert_eq_nil]
        simp
      simp only [fatalStop, hg, Bool.or_eq_true, henv, hfold]
      simp [hfind]

/-- A CSV entry with one (all-missing) reading row. -/
def fileCsvA : DirFile := ⟨"A_env.csv", [⟨"t", none, none, none, none⟩], []⟩

/-- A workbook entry with no sheets at all. -/
def fileXlsxEmpty : DirFile := ⟨"growth.xlsx", [], []⟩

def fsEmptyWb : List DirFile := [fileCsvA, fileXlsxEmpty]

/-- Claim C3 counterexample: with a registered CSV and a discovered
workbook whose sheet mapping is empty, the guard still stops — startup
failure is not equivalent to "no environment files or no workbook". -/
theorem startup_empty_workbook :
    fatalStop fsEmptyWb = true ∧
    school_files fsEmptyWb ≠ [] ∧
    fsEmptyWb.find? (fun f => pathSuffix f.name == ".xlsx") = some fileXlsxEmpty :=
  ⟨rfl, by decide, rfl⟩

def fsNoWb : List DirFile := [fileCsvA]

theorem startup_check_w :
    load_growth_data fsNoWb = none ∧ fatalStop fsNoWb = true :=
  ⟨(startup_check fsNoWb).1 (by decide),
   (startup_check fsNoWb).2.mpr (Or.inr (Or.inl (by decide)))⟩

/-! ## C5: group present in env files but absent from the workbook -/

/-- Claim C5 (amended): when a group key of the environment mapping has no
entry in the growth mapping, every function of the render pass stays
total (no abort): the overview renders one row per environment group, the
missing group's overview specimen count is `0`, and the tab-3 growth
summary contains no row at all for that group — its growth averages are
absent, not rendered as a placeholder. -/
theorem missing_group_graceful (env : List (String × EnvTable))
    (growth : List (String × GrowthTable)) (s : String) (t : EnvTable)
    (hmem : (s, t) ∈ env) (hs : lookupD growth s = none) :
    (overviewRows env growth).length = env.length ∧
    (∃ orow, orow ∈ overviewRows env growth ∧ orow.school = s ∧ orow.count = 0) ∧
    (∀ row ∈ summaryRows growth, row.school ≠ s) := by
  refine ⟨by simp [overviewRows], ?_, ?_⟩
  · refine ⟨_, List.mem_map.2 ⟨(s, t), hmem, rfl⟩, rfl, ?_⟩
    simp [growthCount, hs]
  · intro row hrow
    rcases List.mem_map.1 hrow with ⟨p, hp, rfl⟩
    intro hEq
    exact (lookupD_eq_none_iff s growth).1 hs p hp hEq

def fileCsvS : DirFile := ⟨"송도고_env.csv", [⟨"t1", none, none, none, none⟩], []⟩

def fileCsvH : DirFile := ⟨"하늘고_env.csv", [⟨"t2", none, none, none, none⟩], []⟩

/-- A workbook holding a sheet for only the first school. -/
def fileWbS : DirFile := ⟨"growth.xlsx", [], [("송도고", [⟨none, none, none⟩])]⟩

def fsMissingB : List DirFile := [fileCsvS, fileCsvH, fileWbS]

def gdMissingB : List (String × GrowthTable) := [("송도고", [⟨none, none, none⟩])]

/-- Claim C5 counterexample: with 하늘고 registered from the environment
files but absent from the workbook, the pipeline does not stop and the
overview count is 0, but the growth summary simply contains no 하늘고 row:
no "N/A" growth-average entry is displayed for it anywhere. -/
theorem missing_group_counterexample :
    fatalStop fsMissingB = false ∧
    load_growth_data fsMissingB = some gdMissingB ∧
    overviewRows (load_environment_data fsMissingB) gdMissingB =
      [⟨"송도고", some 1, 1, some "#1f77b4"⟩, ⟨"하늘고", some 2, 0, some "#2ca02c"⟩] ∧
    (summaryRows gdMissingB).map (fun r => r.school) = ["송도고"] :=
  ⟨rfl, rfl, rfl, rfl⟩

theorem missing_group_graceful_w :
    (overviewRows (load_environment_data fsMissingB) gdMissingB).length =
      (load_environment_data fsMissingB).length ∧
    (∃ orow, orow ∈ overviewRows (load_environment_data fsMissingB) gdMissingB ∧
      orow.school = "하늘고" ∧ orow.count = 0) ∧
    (∀ row ∈ summaryRows gdMissingB, row.school ≠ "하늘고") :=
  missing_group_graceful (load_environment_data fsMissingB) gdMissingB "하늘고"
    [⟨"t2", none, none, none, none⟩] (by decide) (by decide)

/-! ## C6: Unicode normalisation in file matching -/

/-- Claim C6 (amended): the helper `find_file_by_name` does compare names
modulo NFC — a returned entry's normalised name equals the normalised
target, and whenever some entry matches modulo NFC a result is returned —
and `normalize_name` is total; the directory-scan registration, however,
works on the raw names (see the counterexample). -/
theorem find_file_nfc (files : List DirFile) (target_name : String) :
    (∀ f, find_file_by_name files target_name = some f →
      normalize_name f.name = normalize_name target_name) ∧
    ((∃ f ∈ files, normalize_name f.name = normalize_name target_name) →
      ∃ f, find_file_by_name files target_name = some f) := by
  constructor
  · intro f hf
    have hp := List.find?_some hf
    exact eq_of_beq hp
  · rintro ⟨f, hfmem, hfeq⟩
    have hsome : (files.find?
        (fun f => normalize_name f.name == normalize_name target_name)).isSome := by
      rw [List.find?_isSome]
      exact ⟨f, hfmem, by simp [hfeq]⟩
    obtain ⟨g, hg⟩ := Option.isSome_iff_exists.1 hsome
    exact ⟨g, hg⟩

/-- "하늘고_env.csv" with its first syllable written as decomposed jamo
(U+1112 U+1161) instead of the precomposed U+D558. -/
def fileDecomposed : DirFile :=
  ⟨⟨[Char.ofNat 0x1112, Char.ofNat 0x1161] ++ "늘고_env.csv".data⟩,
   [⟨"d", none, none, none, none⟩], []⟩

def fileComposed : DirFile := ⟨"하늘고_env.csv", [⟨"c", none, none, none, none⟩], []⟩

/-- Claim C6 counterexample: two CSV names that are equal modulo NFC but
differently encoded are registered by the scan under two distinct keys —
the Locator's classification compares raw names, so NFC-equal filenames
are not classified identically. -/
theorem locator_not_nfc :
    normalize_name fileDecomposed.name = normalize_name fileComposed.name ∧
    fileDecomposed.name ≠ fileComposed.name ∧
    keyOf fileDecomposed.name ≠ keyOf fileComposed.name ∧
    (school_files [fileDecomposed, fileComposed]).length = 2 ∧
    lookupD (school_files [fileDecomposed, fileComposed]) (keyOf fileComposed.name) =
      some fileComposed ∧
    lookupD (school_files [fileDecomposed, fileComposed]) (keyOf fileDecomposed.name) =
      some fileDecomposed := by
  decide

theorem find_file_nfc_w :
    (∃ f, find_file_by_name [fileDecomposed] "하늘고_env.csv" = some f) ∧
    find_file_by_name [fileDecomposed] "하늘고_env.csv" = some fileDecomposed :=
  ⟨(find_file_nfc [fileDecomposed] "하늘고_env.csv").2 ⟨fileDecomposed, by decide, by decide⟩,
   by decide⟩

/-! ## C7: the concatenated long-form table -/

/-- Claim C7: for every growth mapping of the render pass (non-empty past
the startup guard, since `pd.concat` of an empty list raises), the
concatenated long-form table has as many rows as all group tables
together, each of its rows is a row of the group table named by its tag,
and every group-table row appears tagged with its group. -/
theorem concat_preserves (growth : List (String × GrowthTable)) (_hne : growth ≠ []) :
    (concat_df growth).length = (growth.map (fun p => p.2.length)).sum ∧
    (∀ s r, (s, r) ∈ concat_df growth → ∃ df, (s, df) ∈ growth ∧ r ∈ df) ∧
    (∀ p ∈ growth, ∀ r ∈ p.2, (p.1, r) ∈ concat_df growth) := by
  refine ⟨?_, ?_, ?_⟩
  · simp [concat_df, List.length_flatten, List.map_map, Function.comp_def]
  · intro s r hmem
    simp only [concat_df] at hmem
    rcases List.mem_flatten.1 hmem with ⟨l, hl, hrl⟩
    rcases List.mem_map.1 hl with ⟨⟨ps, pdf⟩, hp, rfl⟩
    rcases List.mem_map.1 hrl with ⟨r', hr', heq⟩
    simp only [Prod.mk.injEq] at heq
    obtain ⟨hs, hr⟩ := heq
    subst hs
    subst hr
    exact ⟨pdf, hp, hr'⟩
  · intro p hp r hr
    simp only [concat_df]
    exact List.mem_flatten.2
      ⟨p.2.map (fun r => (p.1, r)), List.mem_map_of_mem _ hp, List.mem_map_of_mem _ hr⟩

theorem concat_preserves_w :
    (concat_df growthW1).length = (growthW1.map (fun p => p.2.length)).sum ∧
    (∀ s r, (s, r) ∈ concat_df growthW1 → ∃ df, (s, df) ∈ growthW1 ∧ r ∈ df) ∧
    (∀ p ∈ growthW1, ∀ r ∈ p.2, (p.1, r) ∈ concat_df growthW1) :=
  concat_preserves growthW1 (by decide)

/-! ## C8: the process-wide load cache -/

/-- Claim C8 (amended): a second loader invocation returns the first
invocation's value without reading the disk — whatever the directory
contents are at the time of the second call.  The cache key of a zero-
argument `@st.cache_data` function never involves the directory contents,
so identical contents get the stable cached result, but changed contents
do not invalidate it either. -/
theorem cache_stable (fs fs2 : List DirFile) :
    (run_load_environment fs2 (run_load_environment fs initialCache).state).value
      = (run_load_environment fs initialCache).value ∧
    (run_load_environment fs2 (run_load_environment fs initialCache).state).readDisk = false ∧
    (run_load_growth fs2 (run_load_growth fs initialCache).state).value
      = (run_load_growth fs initialCache).value ∧
    (run_load_growth fs2 (run_load_growth fs initialCache).state).readDisk = false :=
  ⟨rfl, rfl, rfl, rfl⟩

def fsContents1 : List DirFile := [⟨"A_env.csv", [⟨"old", none, none, none, none⟩], []⟩]

def fsContents2 : List DirFile := [⟨"A_env.csv", [⟨"new", none, none, none, none⟩], []⟩]

/-- Claim C8 counterexample: after the directory contents change, the
cached environment loader still returns the result computed from the old
contents, which differs from what a fresh read of the new contents would
give — the cache is not invalidated by a content change. -/
theorem cache_not_invalidated :
    load_environment_data fsContents1 ≠ load_environment_data fsContents2 ∧
    (run_load_environment fsContents2
        (run_load_environment fsContents1 initialCache).state).value
      = load_environment_data fsContents1 :=
  ⟨by decide, rfl⟩

/-! ## C9: the hard-coded "최적 EC" overview metric -/

/-- Mean of a column whose non-missing part is `n` copies of the same
value. -/
theorem colMean_replicate (n : Nat) (hn : n ≠ 0) (q : ℚ) :
    colMean (List.replicate n (some q)) = some q := by
  have e : ∀ m : Nat, nonMissing (List.replicate m (some q)) = List.replicate m q := by
    intro m
    induction m with
    | zero => rfl
    | succ k ih =>
      simp only [List.replicate_succ]
      simp only [nonMissing, List.filterMap_cons, id] at ih ⊢
      rw [ih]
  have hlen : (List.replicate n q).length = n := List.length_replicate n q
  have hsum : (List.replicate n q).sum = (n : ℚ) * q := by
    rw [List.sum_replicate, nsmul_eq_mul]
  have hcast : (n : ℚ) ≠ 0 := Nat.cast_ne_zero.2 hn
  simp only [colMean, e n, specArithMean, hlen, hsum, hn, if_false]
  rw [mul_div_cancel_left₀ q hcast]

/-- A growth mapping in which 송도고, not 하늘고, has the maximal mean
fresh weight. -/
def growthBest9 : List (String × GrowthTable) :=
  [("송도고", [⟨some 2, none, none⟩]), ("하늘고", [⟨some 1, none, none⟩])]

/-- Claim C9: the overview tab's "최적 EC" metric is the constant string
`"2.0 (하늘고) ⭐"` for every loaded dataset — in particular for a dataset
whose data-driven best group (tab 3) is 송도고, a different group. -/
theorem optEC_constant :
    (∀ e g e2 g2, tab1OptEC e g = tab1OptEC e2 g2) ∧
    (∀ e g, tab1OptEC e g = "2.0 (하늘고) ⭐") ∧
    (bestRow growthBest9).map (fun r => r.school) = some "송도고" ∧
    "송도고" ≠ "하늘고" := by
  refine ⟨fun _ _ _ _ => rfl, fun _ _ => rfl, ?_, by decide⟩
  have c2 : colMean [some (2 : ℚ)] = some 2 := colMean_replicate 1 one_ne_zero 2
  have c1 : colMean [some (1 : ℚ)] = some 1 := colMean_replicate 1 one_ne_zero 1
  have hcol : freshCol growthBest9 = [some 2, some 1] := by
    simp only [freshCol, summaryRows, growthBest9, List.map_cons, List.map_nil]
    rw [c2, c1]
  have hidx : idxmax [some 2, some 1] = some (0, 2) := by norm_num [idxmax]
  have hbest : bestRow growthBest9 = (summaryRows growthBest9).get? 0 := by
    unfold bestRow
    rw [hcol, hidx]
  rw [hbest]
  rfl

/-! ## C10: the overview average-temperature/humidity metrics -/

theorem pySum_go (ms : List ℚ) :
    ∀ q : ℚ, (ms.map some).foldl
      (fun a x =>
        match a, x with
        | some q, some v => some (q + v)
        | _, _ => none) (some q) = some (q + ms.sum) := by
  induction ms with
  | nil => intro q; simp
  | cons m rest ih =>
    intro q
    simp only [List.map_cons, List.foldl_cons, ih, List.sum_cons]
    ring_nf

theorem pySum_map_some (ms : List ℚ) : pySum (ms.map some) = some ms.sum := by
  rw [pySum, pySum_go ms 0]
  simp

theorem tab1_avg_general (xs : List (Option ℚ)) (ms : List ℚ) (hx : xs = ms.map some)
    (hne : ms ≠ []) : pyDivNat (pySum xs) xs.length = some (specArithMean ms) := by
  subst hx
  have hlen : ms.length ≠ 0 := by simpa [List.length_eq_zero] using hne
  rw [pySum_map_some]
  simp [pyDivNat, List.length_map, hlen, specArithMean]

/-- Pooled mean over all readings of all groups (what a reading-weighted
average would be). -/
def specPooledTemp (env : List (String × EnvTable)) : Option ℚ :=
  colMean ((env.map (fun p => p.2.map (fun r => r.temperature))).flatten)

/-- An environment reading with the given temperature and nothing else. -/
def rowT (q : ℚ) : EnvRow := ⟨"", some q, none, none, none⟩

/-- Group sizes 1, 2, 4 with pairwise distinct per-group temperature
means 1, 6, 2 — the unweighted mean of means and the pooled mean are both
3. -/
def env10 : List (String × EnvTable) :=
  [("A", [rowT 1]),
   ("B", [rowT 6, rowT 6]),
   ("C", [rowT 2, rowT 2, rowT 2, rowT 2])]

/-- Claim C10 counterexample: an environment mapping with pairwise
distinct group row counts and pairwise distinct per-group means on which
the displayed average temperature nevertheless equals the pooled mean —
the two notions do not differ on every such mapping. -/
theorem avg_metric_counterexample :
    (env10.map (fun p => p.2.length)) = [1, 2, 4] ∧
    tab1Temps env10 = [some 1, some 6, some 2] ∧
    ([(1 : ℚ), 6, 2]).Nodup ∧
    tab1AvgTemp env10 = specPooledTemp env10 ∧
    tab1AvgTemp env10 = some 3 := by
  have c1 : colMean [some (1 : ℚ)] = some 1 := colMean_replicate 1 one_ne_zero 1
  have c6 : colMean [some (6 : ℚ), some 6] = some 6 := colMean_replicate 2 (by decide) 6
  have c2 : colMean [some (2 : ℚ), some 2, some 2, some 2] = some 2 :=
    colMean_replicate 4 (by decide) 2
  have hmeans : tab1Temps env10 = [some 1, some 6, some 2] := by
    simp only [tab1Temps, env10, rowT, List.map_cons, List.map_nil]
    rw [c1, c6, c2]
  have havg : tab1AvgTemp env10 = some 3 := by
    have h1 : tab1AvgTemp env10 =
        pyDivNat (pySum (tab1Temps env10)) (tab1Temps env10).length := rfl
    rw [h1, hmeans]
    norm_num [pySum, pyDivNat, List.foldl_cons, List.foldl_nil, List.length_cons]
  have hpool : specPooledTemp env10 =
      colMean [some 1, some 6, some 6, some 2, some 2, some 2, some 2] := rfl
  have e7 : nonMissing [some (1 : ℚ), some 6, some 6, some 2, some 2, some 2, some 2] =
      [1, 6, 6, 2, 2, 2, 2] := rfl
  have hpool3 : specPooledTemp env10 = some 3 := by
    rw [hpool]
    simp only [colMean, e7, specArithMean]
    norm_num [List.sum_cons, List.sum_nil, List.length_cons]
  exact ⟨by decide, hmeans, by decide, by rw [havg, hpool3], havg⟩

/-- An environment reading with the given temperature and humidity. -/
def rowTH (q : ℚ) : EnvRow := ⟨"", some q, some q, none, none⟩

/-- Two groups with unequal counts (1 and 3 readings) and different means
(0 and 1): here the displayed metric does differ from the pooled mean. -/
def envDiff : List (String × EnvTable) :=
  [("A", [rowTH 0]), ("B", [rowTH 1, rowTH 1, rowTH 1])]

/-- Claim C10 (amended): the displayed average temperature and humidity
are the unweighted arithmetic means of the per-group column means
(whenever every group has a non-missing reading), and there exist
mappings with unequal row counts and differing means on which this
differs from the pooled mean — but not on every such mapping. -/
theorem avg_metrics_mean_of_means (env : List (String × EnvTable)) (hne : env ≠ [])
    (ht : ∀ p ∈ env, ∃ r ∈ p.2, r.temperature ≠ none)
    (hh : ∀ p ∈ env, ∃ r ∈ p.2, r.humidity ≠ none) :
    tab1AvgTemp env =
      some (specArithMean (env.map (fun p =>
        specArithMean (nonMissing (p.2.map (fun r => r.temperature)))))) ∧
    tab1AvgHum env =
      some (specArithMean (env.map (fun p =>
        specArithMean (nonMissing (p.2.map (fun r => r.humidity)))))) ∧
    tab1AvgTemp envDiff ≠ specPooledTemp envDiff := by
  refine ⟨?_, ?_, ?_⟩
  · show pyDivNat (pySum (tab1Temps env)) (tab1Temps env).length = _
    apply tab1_avg_general
    · simp only [tab1Temps]
      rw [List.map_map]
      apply List.map_congr_left
      intro p hp
      obtain ⟨r, hr, hrne⟩ := ht p hp
      simp only [Function.comp_apply]
      exact colMean_eq_some _ ⟨r.temperature, List.mem_map_of_mem _ hr, hrne⟩
    · simpa [List.map_eq_nil_iff] using hne
  · show pyDivNat (pySum (tab1Hums env)) (tab1Hums env).length = _
    apply tab1_avg_general
    · simp only [tab1Hums]
      rw [List.map_map]
      apply List.map_congr_left
      intro p hp
      obtain ⟨r, hr, hrne⟩ := hh p hp
      simp only [Function.comp_apply]
      exact colMean_eq_some _ ⟨r.humidity, List.mem_map_of_mem _ hr, hrne⟩
    · simpa [List.map_eq_nil_iff] using hne
  · have c0 : colMean [some (0 : ℚ)] = some 0 := colMean_replicate 1 one_ne_zero 0
    have c1 : colMean [some (1 : ℚ), some 1, some 1] = some 1 :=
      colMean_replicate 3 (by decide) 1
    have hm : tab1Temps envDiff = [some 0, some 1] := by
      simp only [tab1Temps, envDiff, rowTH, List.map_cons, List.map_nil]
      rw [c0, c1]
    have h1 : tab1AvgTemp envDiff =
        pyDivNat (pySum (tab1Temps envDiff)) (tab1Temps envDiff).length := rfl
    have h2 : specPooledTemp envDiff = colMean [some 0, some 1, some 1, some 1] := rfl
    have e4 : nonMissing [some (0 : ℚ), some 1, some 1, some 1] = [0, 1, 1, 1] := rfl
    rw [h1, hm, h2]
    simp only [colMean, e4, specArithMean, pySum, pyDivNat, List.foldl_cons, List.foldl_nil]
    norm_num [List.sum_cons, List.sum_nil, List.length_cons]

theorem avg_metrics_mean_of_means_w :
    envDiff ≠ [] ∧
    (∀ p ∈ envDiff, ∃ r ∈ p.2, r.temperature ≠ none) ∧
    (∀ p ∈ envDiff, ∃ r ∈ p.2, r.humidity ≠ none) ∧
    (tab1AvgTemp envDiff =
      some (specArithMean (envDiff.map (fun p =>
        specArithMean (nonMissing (p.2.map (fun r => r.temperature)))))) ∧
     tab1AvgHum envDiff =
      some (specArithMean (envDiff.map (fun p =>
        specArithMean (nonMissing (p.2.map (fun r => r.humidity)))))) ∧
     tab1AvgTemp envDiff ≠ specPooledTemp envDiff) :=
  ⟨by decide, by decide, by decide,
   avg_metrics_mean_of_means envDiff (by decide) (by decide) (by decide)⟩

end PolarPlant
